import Mathlib

/-!
Shallow embedding of `src/api/index.py` (SorceryWebApp) and a verification of
the specification's claims against it.  The three core pieces are embedded:

* the decklist resolver (`extract_deck_id`, `resolve_decklist_from_url`),
  with the HTTP layer abstracted as an oracle that either fails (timeout,
  connection error, non-2xx status) or yields the decoded JSON document;
* the enrichment engine (`enrich_and_match_data`), a pure function;
* the PDF layout engine (`create_pdf_from_cards`), with the per-card
  image fetch/tag/resize pipeline abstracted as a success oracle and the
  filesystem side effects recorded as an explicit event trace.

Dynamically typed values flowing through the resolver are modelled by a JSON
value type `JVal`, and the Python operations the code performs on them
(`x[i]`, `d.get(k, dflt)`, truthiness, `> 0`, `.strip()`) are modelled with
their exception behaviour (`PyErr`), because the code's `try/except` blocks
are part of what the claims are about.
-/

namespace Sorcery

/-- JSON values as produced by `response.json()`.  Object fields are kept in
source order; decoded JSON never carries duplicate keys.  Numbers are
modelled as integers (the only numeric fields touched are card quantities). -/
inductive JVal where
  | jnull
  | jbool (b : Bool)
  | jnum (n : Int)
  | jstr (s : String)
  | jarr (xs : List JVal)
  | jobj (fields : List (String × JVal))

/-- The Python exception kinds that the resolver code can raise while
navigating a decoded JSON document. -/
inductive PyErr where
  | keyError
  | indexError
  | typeError
  | attrError
deriving Repr, DecidableEq

/-- Field lookup in a JSON object (first matching key). -/
def jfield : List (String × JVal) → String → Option JVal
  | [], _ => none
  | (k1, v) :: fs, k => if k1 = k then some v else jfield fs k

/-- Python `v[i]` for an integer index `i`: lists index, strings index to a
one-character string, dicts raise `KeyError` (JSON object keys are strings,
so an integer key is never present), everything else raises `TypeError`. -/
def pyIndexNat : JVal → Nat → Except PyErr JVal
  | .jarr xs, i =>
    match xs.get? i with
    | some v => .ok v
    | none => .error .indexError
  | .jstr s, i =>
    match s.data.get? i with
    | some c => .ok (.jstr (String.mk [c]))
    | none => .error .indexError
  | .jobj _, _ => .error .keyError
  | _, _ => .error .typeError

/-- Python `v[k]` for a string key `k`: dicts look up (raising `KeyError`
when absent), everything else raises `TypeError`. -/
def pyIndexStr : JVal → String → Except PyErr JVal
  | .jobj fs, k =>
    match jfield fs k with
    | some v => .ok v
    | none => .error .keyError
  | _, _ => .error .typeError

/-- Python `v.get(k, dflt)`: only dicts have `.get`; anything else raises
`AttributeError`. -/
def pyGet : JVal → String → JVal → Except PyErr JVal
  | .jobj fs, k, dflt => .ok ((jfield fs k).getD dflt)
  | _, _, _ => .error .attrError

/-- Python truthiness of a JSON value. -/
def pyTruthy : JVal → Bool
  | .jnull => false
  | .jbool b => b
  | .jnum n => !(n == 0)
  | .jstr s => !s.isEmpty
  | .jarr xs => !xs.isEmpty
  | .jobj fs => !fs.isEmpty

/-- Python `v > 0`: numbers compare, booleans are integers (`True` is 1),
everything else raises `TypeError` against an int. -/
def pyGtZero : JVal → Except PyErr Bool
  | .jnum n => .ok (decide (0 < n))
  | .jbool b => .ok b
  | _ => .error .typeError

/-- `s.strip()` on a string: drop leading and trailing whitespace. -/
def pyStripStr (s : String) : String :=
  ((s.data.dropWhile Char.isWhitespace).reverse.dropWhile
    Char.isWhitespace).reverse.asString

/-- Python `v.strip()`: only strings have `.strip`; anything else raises
`AttributeError`. -/
def pyStrip : JVal → Except PyErr String
  | .jstr s => .ok (pyStripStr s)
  | _ => .error .attrError

/-- The integer value of a quantity that passed the `> 0` comparison
(so it is a number or a boolean). -/
def pyToInt : JVal → Int
  | .jnum n => n
  | .jbool b => if b then 1 else 0
  | _ => 0

/-! ## Deck-ID extraction

`extract_deck_id` runs `re.search(r'view/([a-z0-9]+)|([a-z0-9]+)$', url)`:
try every start position from the left; at each position the alternation
prefers the `view/` branch; both character-class groups are greedy.  `$` is
modelled as end of string (URLs contain no newlines). -/

/-- The character class `[a-z0-9]`. -/
def isIdChar (c : Char) : Bool :=
  (decide ('a' ≤ c) && decide (c ≤ 'z')) || (decide ('0' ≤ c) && decide (c ≤ '9'))

/-- The branch `view/([a-z0-9]+)` tried at one start position: the literal
`view/` followed by a nonempty (greedy, hence maximal) run of id characters. -/
def matchAlt1 (l : List Char) : Option (List Char) :=
  if l.take 5 = ['v', 'i', 'e', 'w', '/'] then
    let run := (l.drop 5).takeWhile isIdChar
    if run.isEmpty then none else some run
  else none

/-- The branch `([a-z0-9]+)$` tried at one start position: it matches iff the
whole remaining suffix is a nonempty run of id characters (any shorter greedy
match is rejected by the end anchor). -/
def matchAlt2 (l : List Char) : Option (List Char) :=
  if !l.isEmpty && l.all isIdChar then some l else none

/-- `re.search` over the pattern: scan start positions left to right, trying
the `view/` branch first at each position. -/
def reScan : List Char → Option (List Char)
  | [] => none
  | c :: rest =>
    match matchAlt1 (c :: rest) with
    | some g => some g
    | none =>
      match matchAlt2 (c :: rest) with
      | some g => some g
      | none => reScan rest

/-- `extract_deck_id` from `src/api/index.py`: the matched group
(`match.group(1) or match.group(2)`; exactly one group is nonempty). -/
def extract_deck_id (url : String) : Option String :=
  (reScan url.data).map List.asString

/-! ## Decklist resolution -/

/-- A resolved decklist entry: `{'name': ..., 'quantity': ...}`. -/
structure DeckRequirement where
  name : String
  quantity : Int
deriving Repr, DecidableEq

/-- The HTTP layer of the resolver, abstracted: given the extracted deck id
(which fully determines the request URL built from the tRPC envelope), the
oracle either reports a `requests.exceptions.RequestException` (timeout,
connection error, or the non-2xx raised by `raise_for_status`) as `none`, or
yields the decoded JSON response body. -/
def FetchOracle : Type := String → Option JVal

/-- The `for entry in decklist_entries` loop of `resolve_decklist_from_url`:
`card_info = entry.get('card')`, `quantity = entry.get('quantity', 0)`,
keep `{'name': name, 'quantity': quantity}` when `card_info` is truthy,
`quantity > 0` and the stripped name is nonempty.  Any Python exception
raised inside the loop propagates (to the surrounding `try`). -/
def normalize_entries : List JVal → Except PyErr (List DeckRequirement)
  | [] => .ok []
  | e :: rest =>
    match pyGet e "card" .jnull with
    | .error err => .error err
    | .ok card =>
      match pyGet e "quantity" (.jnum 0) with
      | .error err => .error err
      | .ok q =>
        if pyTruthy card then
          match pyGtZero q with
          | .error err => .error err
          | .ok gt =>
            if gt then
              match pyGet card "name" (.jstr "") with
              | .error err => .error err
              | .ok nval =>
                match pyStrip nval with
                | .error err => .error err
                | .ok nm =>
                  if nm.isEmpty then normalize_entries rest
                  else
                    match normalize_entries rest with
                    | .error err => .error err
                    | .ok tl => .ok (⟨nm, pyToInt q⟩ :: tl)
            else normalize_entries rest
        else normalize_entries rest

/-- Steps 5 of `resolve_decklist_from_url`: navigate
`raw_response[0]['result']['data']['json']`, check `isinstance(..., list)`
(returning `[]` otherwise), and run the entry loop — all inside a
`try ... except (KeyError, IndexError, TypeError)` whose handler prints
`json.dumps(raw_response[0], ...)` (re-indexing `raw_response[0]`!) and then
returns `[]`.  An exception raised by that re-indexing, or any exception not
named in the `except` clause (e.g. `AttributeError`), escapes to the caller. -/
def parse_trpc_response (raw : JVal) : Except PyErr (List DeckRequirement) :=
  let attempt : Except PyErr (List DeckRequirement) :=
    match pyIndexNat raw 0 with
    | .error err => .error err
    | .ok e0 =>
      match pyIndexStr e0 "result" with
      | .error err => .error err
      | .ok r =>
        match pyIndexStr r "data" with
        | .error err => .error err
        | .ok d =>
          match pyIndexStr d "json" with
          | .error err => .error err
          | .ok j =>
            match j with
            | .jarr entries => normalize_entries entries
            | _ => .ok []
  match attempt with
  | .ok v => .ok v
  | .error err =>
    if err = .attrError then
      .error err
    else
      match pyIndexNat raw 0 with
      | .ok _ => .ok []
      | .error err2 => .error err2

/-- `resolve_decklist_from_url` from `src/api/index.py`: extract the deck id
(returning `[]` when none), perform the fetch (returning `[]` on any
`RequestException`), then parse the response. -/
def resolve_decklist_from_url (fetch : FetchOracle) (url : String) :
    Except PyErr (List DeckRequirement) :=
  match extract_deck_id url with
  | none => .ok []
  | some deck_id =>
    match fetch deck_id with
    | none => .ok []
    | some raw => parse_trpc_response raw

/-! ## Enrichment engine -/

/-- A record of the user's owned collection as consumed by
`enrich_and_match_data`.  (`parse_curiosa_export` also carries `set` and
`finish` fields; the engine reads only `name` and `quantity`, so it is
embedded on those two.) -/
structure OwnedCard where
  name : String
  quantity : Int
deriving Repr, DecidableEq

/-- A master-catalog record (one value of `CARD_DB`).  Every field the engine
reads is read with `.get`, so each is optional. -/
structure MasterData where
  image_url : Option String
  rarity : Option String
  price_usd : Option ℚ
  mana_cost : Option Int
  image_file : Option String
deriving Repr, DecidableEq

/-- The master catalog: `card_db.get(name)`.  (The loaded `CARD_DB` maps each
name to a nonempty record, so a match is `isSome`.) -/
def CardDB : Type := String → Option MasterData

/-- The master-data fields copied onto an enriched card when a catalog match
exists. -/
structure EnrichedExtras where
  image_url : Option String
  rarity : Option String
  price_usd : Option ℚ
  mana_cost : Option Int
  slug : String
deriving Repr, DecidableEq

/-- One output record of `enrich_and_match_data`. -/
structure EnrichedCard where
  name : String
  required_quantity : Int
  owned_quantity : Int
  net_needed_quantity : Int
  status : String
  extras : Option EnrichedExtras
deriving Repr, DecidableEq

/-- The dict comprehension
`{card['name']: card['quantity'] for card in owned_collection}`:
later records with the same name overwrite earlier ones. -/
def ownedQuantities (owned : List OwnedCard) : String → Option Int :=
  owned.foldl (fun m c => fun n => if n = c.name then some c.quantity else m n)
    (fun _ => none)

/-- The body of the `for deck_card in decklist` loop of
`enrich_and_match_data`: build one enriched record from one decklist entry. -/
def enrichCard (owned_quantities : String → Option Int) (card_db : CardDB)
    (deck_card : DeckRequirement) : EnrichedCard :=
  let card_name := deck_card.name
    let required_quantity := deck_card.quantity
    let master_data := card_db card_name
    let owned_quantity := (owned_quantities card_name).getD 0
    let net_needed := required_quantity - owned_quantity
    let final_status :=
      match master_data with
      | none => "Error_NotFound"
      | some _ =>
        if net_needed ≤ 0 then "Complete"
        else if 0 < owned_quantity then "Proxy_Needed"
        else "Missing"
    { name := card_name
      required_quantity := required_quantity
      owned_quantity := owned_quantity
      net_needed_quantity := max 0 net_needed
      status := final_status
      extras := master_data.map fun md =>
        { image_url := md.image_url
          rarity := md.rarity
          price_usd := md.price_usd
          mana_cost := md.mana_cost
          slug := (md.image_file.getD "").replace ".png" "" } }

/-- `enrich_and_match_data` from `src/api/index.py`.  The loop appends one
enriched record per decklist entry, with no cross-iteration state, i.e. it
is a map of `enrichCard` over the decklist. -/
def enrich_and_match_data (decklist : List DeckRequirement)
    (owned_collection : List OwnedCard) (card_db : CardDB) : List EnrichedCard :=
  decklist.map (enrichCard (ownedQuantities owned_collection) card_db)

/-! ## PDF layout engine

`create_pdf_from_cards` is embedded as a deterministic simulation.  The
per-card fetch/tag/resize/save block (network + Pillow + filesystem) is
abstracted by an oracle `imgOK : String → Bool` on the image URL: `true`
means the `try` block succeeds and a temporary file is written, `false`
means any exception inside it (`continue` to the next card).  Temporary
file paths (`/tmp/<uuid4>_<name>.png`) are unique per creation; they are
modelled by their creation index. -/

/-- The card entries of a print job: `{'name': ..., 'quantity': ...}`. -/
structure PrintCard where
  name : String
  quantity : Int
deriving Repr, DecidableEq

/-- The cursor state of the drawing loop: `card_counter`, `x_pos`, `y_pos`
(in mm) and the index of the current page (0 for the page added before the
loop; `pdf.add_page()` increments it). -/
structure PdfState where
  counter : Nat
  x : ℚ
  y : ℚ
  page : Nat
deriving Repr, DecidableEq

/-- One `pdf.image(...)` call: which tagged image was drawn, on which page,
at which position (mm). -/
structure Cell where
  name : String
  page : Nat
  x : ℚ
  y : ℚ
deriving Repr, DecidableEq

/-- Filesystem/serialization events of one `create_pdf_from_cards` run. -/
inductive PdfEvent where
  | createTemp (id : Nat)
  | serialize
  | removeAttempt (id : Nat)
deriving Repr, DecidableEq

def CARD_WIDTH_MM : ℚ := 63
def CARD_HEIGHT_MM : ℚ := 88
def MARGIN_X : ℚ := 10
def MARGIN_Y : ℚ := 10
def COLS : Nat := 3
def ROWS : Nat := 3
def SPACING : ℚ := 1/2

/-- The inner `for i in range(quantity_to_print)` loop: per copy, first the
page-break check (`card_counter > 0 and card_counter % 9 == 0`), then the
`pdf.image` call at the current cursor, then the cursor/counter update. -/
def innerLoop : List String → PdfState → List Cell × PdfState
  | [], st => ([], st)
  | nm :: rest, st =>
    let st1 : PdfState :=
      if st.counter ≠ 0 ∧ st.counter % (COLS * ROWS) = 0 then
        { counter := st.counter, x := MARGIN_X, y := MARGIN_Y, page := st.page + 1 }
      else st
    let cell : Cell := { name := nm, page := st1.page, x := st1.x, y := st1.y }
    let st2 : PdfState :=
      if (st.counter + 1) % COLS = 0 then
        { counter := st.counter + 1, x := MARGIN_X,
          y := st1.y + CARD_HEIGHT_MM + SPACING, page := st1.page }
      else
        { counter := st.counter + 1, x := st1.x + CARD_WIDTH_MM + SPACING,
          y := st1.y, page := st1.page }
    let res := innerLoop rest st2
    (cell :: res.1, res.2)

/-- `card_db.get(name, {}).get('image_url')`. -/
def imageUrlOf (card_db : CardDB) (name : String) : Option String :=
  (card_db name).bind fun md => md.image_url

/-- Whether a card of the job is processed (drawn) at all: its catalog image
URL must exist and be truthy (`if not image_url: continue`), and the
fetch/tag/resize/save block must succeed. -/
def processedOK (card_db : CardDB) (imgOK : String → Bool) (c : PrintCard) : Bool :=
  match imageUrlOf card_db c.name with
  | none => false
  | some url => !url.isEmpty && imgOK url

/-- Result of the outer card loop: the drawn cells, the filesystem events
(one `createTemp` per successfully processed card, emitted when
`img_resized.save(temp_path, "PNG")` runs), the accumulated
`temp_files_to_cleanup` list, and the final cursor state.  `fid` is the
creation index of the next temporary file. -/
structure PdfLoopOut where
  cells : List Cell
  events : List PdfEvent
  tmpFiles : List Nat
  state : PdfState
deriving Repr, DecidableEq

/-- The outer `for card_entry in card_list_to_print` loop of
`create_pdf_from_cards`. -/
def pdfLoop (card_db : CardDB) (imgOK : String → Bool) :
    List PrintCard → PdfState → Nat → PdfLoopOut
  | [], st, _ => ⟨[], [], [], st⟩
  | c :: rest, st, fid =>
    match imageUrlOf card_db c.name with
    | none => pdfLoop card_db imgOK rest st fid
    | some url =>
      if url.isEmpty then pdfLoop card_db imgOK rest st fid
      else if imgOK url then
        let inner := innerLoop (List.replicate c.quantity.toNat c.name) st
        let restOut := pdfLoop card_db imgOK rest inner.2 (fid + 1)
        ⟨inner.1 ++ restOut.cells,
         PdfEvent.createTemp fid :: restOut.events,
         fid :: restOut.tmpFiles,
         restOut.state⟩
      else pdfLoop card_db imgOK rest st fid

/-- The observable outcome of one `create_pdf_from_cards` invocation. -/
structure PdfResult where
  cells : List Cell
  trace : List PdfEvent
  pageCount : Nat
  tmpFiles : List Nat
deriving Repr, DecidableEq

/-- `create_pdf_from_cards` from `src/api/index.py`: one `pdf.add_page()`
before the loop (so `pageCount` is the final page index plus one), the card
loop, then `pdf.output(...)` into the buffer, then the best-effort cleanup
loop over `temp_files_to_cleanup` (removal failures ignored, which is why a
`removeAttempt` event is recorded rather than a result). -/
def create_pdf_from_cards (card_db : CardDB) (imgOK : String → Bool)
    (card_list_to_print : List PrintCard) : PdfResult :=
  let out := pdfLoop card_db imgOK card_list_to_print
    ⟨0, MARGIN_X, MARGIN_Y, 0⟩ 0
  { cells := out.cells
    trace := out.events ++ PdfEvent.serialize ::
      out.tmpFiles.map PdfEvent.removeAttempt
    pageCount := out.state.page + 1
    tmpFiles := out.tmpFiles }

/-! ## Helper lemmas: enrichment -/

lemma enrich_length (decklist : List DeckRequirement)
    (owned_collection : List OwnedCard) (card_db : CardDB) :
    (enrich_and_match_data decklist owned_collection card_db).length
      = decklist.length := by
  simp [enrich_and_match_data]

lemma enrich_get (decklist : List DeckRequirement)
    (owned_collection : List OwnedCard) (card_db : CardDB) (i : Nat)
    (h : i < decklist.length) :
    (enrich_and_match_data decklist owned_collection card_db).get
        ⟨i, by rw [enrich_length]; exact h⟩
      = enrichCard (ownedQuantities owned_collection) card_db
          (decklist.get ⟨i, h⟩) := by
  simp [enrich_and_match_data]

/-! ## Theorems for the claims -/

/-- C1: for every decklist entry processed by `enrich_and_match_data`, the
resulting status and `net_needed_quantity` are the claimed pure function of
(catalog match, owned quantity, required quantity), with the owned quantity
defaulting to 0 when the name is absent from the owned collection: no
catalog match gives `Error_NotFound` regardless of ownership; a match with
`required − owned ≤ 0` gives `Complete`; a match with positive owned
quantity but `required − owned > 0` gives `Proxy_Needed`; a match with zero
owned quantity and `required − owned > 0` gives `Missing`; and in every case
`net_needed_quantity = max 0 (required − owned)`. -/
theorem C1_enrichment_status_function (decklist : List DeckRequirement)
    (owned_collection : List OwnedCard) (card_db : CardDB) (i : Nat)
    (h : i < decklist.length) :
    let dc := decklist.get ⟨i, h⟩
    let oq := (ownedQuantities owned_collection dc.name).getD 0
    let oc := (enrich_and_match_data decklist owned_collection card_db).get
      ⟨i, by rw [enrich_length]; exact h⟩
    oc.net_needed_quantity = max 0 (dc.quantity - oq) ∧
    ((card_db dc.name).isSome = false → oc.status = "Error_NotFound") ∧
    ((card_db dc.name).isSome = true → dc.quantity - oq ≤ 0 →
      oc.status = "Complete") ∧
    ((card_db dc.name).isSome = true → 0 < oq → 0 < dc.quantity - oq →
      oc.status = "Proxy_Needed") ∧
    ((card_db dc.name).isSome = true → oq = 0 → 0 < dc.quantity - oq →
      oc.status = "Missing") := by
  intro dc oq oc
  have hoc : oc = enrichCard (ownedQuantities owned_collection) card_db dc :=
    enrich_get decklist owned_collection card_db i h
  rw [hoc]
  rcases hdb : card_db dc.name with _ | md
  · refine ⟨?_, ?_, ?_, ?_, ?_⟩ <;> simp [enrichCard, hdb]
  · refine ⟨?_, ?_, ?_, ?_, ?_⟩
    · simp [enrichCard]
    · simp [hdb]
    · intro _ hle
      simp [enrichCard, hdb, hle]
    · intro _ hoq hlt
      simp only [enrichCard, hdb]
      rw [if_neg (by omega), if_pos hoq]
    · intro _ hoq hlt
      simp only [enrichCard, hdb]
      rw [if_neg (by omega), if_neg (by omega)]

/-- Witness for C1 at a concrete input (match, owned 1 of 3 required:
`Proxy_Needed`, net needed 2). -/
theorem C1_enrichment_status_function_witness :
    (0 : Nat) < ([⟨"a", 3⟩] : List DeckRequirement).length ∧
    (((enrich_and_match_data [⟨"a", 3⟩] [⟨"a", 1⟩]
        (fun n => if n = "a" then some ⟨none, none, none, none, none⟩ else none)).get
      ⟨0, by decide⟩).status = "Proxy_Needed") := by
  refine ⟨by decide, ?_⟩
  have h := C1_enrichment_status_function [⟨"a", 3⟩] [⟨"a", 1⟩]
    (fun n => if n = "a" then some ⟨none, none, none, none, none⟩ else none) 0
    (by decide)
  exact h.2.2.2.1 (by decide) (by decide) (by decide)

/-- C5: enrichment is order- and length-preserving with no deduplication —
exactly one `EnrichedCard` per decklist entry, in input order, so the i-th
output name equals the i-th decklist name (and repeated names therefore
yield repeated, unmerged output entries). -/
theorem C5_enrichment_order_preserving (decklist : List DeckRequirement)
    (owned_collection : List OwnedCard) (card_db : CardDB) :
    (enrich_and_match_data decklist owned_collection card_db).length
      = decklist.length ∧
    ∀ i (h : i < decklist.length),
      ((enrich_and_match_data decklist owned_collection card_db).get
          ⟨i, by rw [enrich_length]; exact h⟩).name
        = (decklist.get ⟨i, h⟩).name := by
  refine ⟨enrich_length decklist owned_collection card_db, ?_⟩
  intro i h
  rw [enrich_get decklist owned_collection card_db i h]
  rfl

/-- Witness for C5 at a concrete input. -/
theorem C5_enrichment_order_preserving_witness :
    (1 : Nat) < ([⟨"x", 1⟩, ⟨"x", 2⟩] : List DeckRequirement).length ∧
    ((enrich_and_match_data [⟨"x", 1⟩, ⟨"x", 2⟩] [] (fun _ => none)).get
        ⟨1, by decide⟩).name
      = (([⟨"x", 1⟩, ⟨"x", 2⟩] : List DeckRequirement).get ⟨1, by decide⟩).name := by
  refine ⟨by decide, ?_⟩
  exact (C5_enrichment_order_preserving [⟨"x", 1⟩, ⟨"x", 2⟩] [] (fun _ => none)).2
    1 (by decide)

/-- C10 (implicit): when the owned collection contains several records with
the same name, only the last one's quantity is used — the name-keyed dict
comprehension overwrites earlier duplicates — so enriching any decklist
against `[{n, a}, {n, b}]` equals enriching it against `[{n, b}]`. -/
theorem C10_owned_duplicates_last_wins (decklist : List DeckRequirement)
    (card_db : CardDB) (n : String) (a b : Int) :
    enrich_and_match_data decklist [⟨n, a⟩, ⟨n, b⟩] card_db
      = enrich_and_match_data decklist [⟨n, b⟩] card_db := by
  unfold enrich_and_match_data
  have h : ownedQuantities [⟨n, a⟩, ⟨n, b⟩] = ownedQuantities [⟨n, b⟩] := by
    funext m
    simp only [ownedQuantities, List.foldl]
    by_cases hm : m = n <;> simp [hm]
  rw [h]

/-- A representative decklist entry as the endpoint returns it:
`{id: ..., quantity: 2, card: {name: "Fang"}}`. -/
def sampleEntry : JVal :=
  .jobj [("id", .jstr "e1"), ("quantity", .jnum 2),
         ("card", .jobj [("name", .jstr "Fang")])]

/-- C2, refuted at the code: the parser reads
`raw_response[0]['result']['data']['json']` and never consults a nested
`'decklist'` key.  A bare-list payload yields the entry; the same entry
nested under `'decklist'` fails the `isinstance(..., list)` check and yields
`[]` — the two shapes do NOT normalize to the same output list.  (The
repository's own `test_api_fix.py` reads `...['json']['decklist']` from the
live endpoint, so the nested shape is the real one.) -/
theorem C2_nested_decklist_shape_not_tolerated :
    parse_trpc_response
        (.jarr [.jobj [("result", .jobj [("data",
          .jobj [("json", .jarr [sampleEntry])])])]])
      = .ok [⟨"Fang", 2⟩] ∧
    parse_trpc_response
        (.jarr [.jobj [("result", .jobj [("data",
          .jobj [("json", .jobj [("decklist", .jarr [sampleEntry])])])])]])
      = .ok [] := by
  exact ⟨rfl, rfl⟩

/-- C4: extraction failure and fetch failure do fail closed to `[]`, but a
response whose top level is an empty JSON array does NOT: the
`except (KeyError, IndexError, TypeError)` handler's debug print evaluates
`raw_response[0]` again, and that `IndexError` escapes to the caller. -/
theorem C4_fail_closed_except_empty_batch :
    (∀ fetch : FetchOracle,
      resolve_decklist_from_url fetch "HTTPS://NO-DECK.EXAMPLE/" = .ok []) ∧
    resolve_decklist_from_url (fun _ => none)
        "https://curiosa.io/decks/view/abcdef" = .ok [] ∧
    resolve_decklist_from_url (fun _ => some (.jarr []))
        "https://curiosa.io/decks/view/abcdef" = .error .indexError := by
  exact ⟨fun _ => rfl, rfl, rfl⟩

/-- Shape restriction under which the entry loop is exception-free: the
entry is a dict, its `quantity` (when present) is a number, its `card`
(when present) is null or a dict, and that card's `name` (when present) is
a string.  Outside this shape the loop raises (`AttributeError`,
`TypeError`), it does not drop. -/
def wellShapedEntry (e : JVal) : Bool :=
  match e with
  | .jobj fs =>
    (match jfield fs "quantity" with
     | none => true
     | some (.jnum _) => true
     | some _ => false) &&
    (match jfield fs "card" with
     | none => true
     | some .jnull => true
     | some (.jobj cfs) =>
       (match jfield cfs "name" with
        | none => true
        | some (.jstr _) => true
        | some _ => false)
     | some _ => false)
  | _ => false

/-- The claim's normalization rule for one entry, stated from the spec's
words: an entry is dropped iff it misses its card sub-object, has a
non-positive quantity, or has a blank (empty after stripping) name; a
surviving entry contributes `{name, quantity}`. -/
def claimedEntryRule (e : JVal) : Option DeckRequirement :=
  match e with
  | .jobj fs =>
    match jfield fs "card" with
    | some (.jobj cfs) =>
      let q : Int :=
        match jfield fs "quantity" with
        | some (.jnum n) => n
        | _ => 0
      let nm : String :=
        match jfield cfs "name" with
        | some (.jstr s) => pyStripStr s
        | _ => ""
      if 0 < q ∧ !nm.isEmpty then some ⟨nm, q⟩ else none
    | _ => none
  | _ => none

lemma normalize_entries_cons_wellShaped (e : JVal) (rest : List JVal)
    (he : wellShapedEntry e = true) :
    normalize_entries (e :: rest)
      = match claimedEntryRule e with
        | none => normalize_entries rest
        | some r =>
          match normalize_entries rest with
          | .error err => .error err
          | .ok tl => .ok (r :: tl) := by
  rcases e with _ | b | n | s | xs | fs <;>
    simp only [wellShapedEntry, Bool.false_eq_true] at he
  rw [Bool.and_eq_true] at he
  obtain ⟨hq, hc⟩ := he
  have hquant : (jfield fs "quantity").getD (.jnum 0) = .jnum
      (match jfield fs "quantity" with | some (.jnum n) => n | _ => 0) := by
    rcases hqf : jfield fs "quantity" with _ | qv
    · rfl
    · rw [hqf] at hq
      rcases qv with _ | b | n | s | xs | qfs <;> simp at hq ⊢
  rcases hcard : jfield fs "card" with _ | cv
  · have hl : normalize_entries (JVal.jobj fs :: rest)
        = normalize_entries rest := by
      simp [normalize_entries, pyGet, hcard, pyTruthy]
    have hr : claimedEntryRule (JVal.jobj fs) = none := by
      simp [claimedEntryRule, hcard]
    rw [hl, hr]
  · rw [hcard] at hc
    rcases cv with _ | b | n | s | xs | cfs
    · have hl : normalize_entries (JVal.jobj fs :: rest)
          = normalize_entries rest := by
        simp [normalize_entries, pyGet, hcard, pyTruthy]
      have hr : claimedEntryRule (JVal.jobj fs) = none := by
        simp [claimedEntryRule, hcard]
      rw [hl, hr]
    · simp at hc
    · simp at hc
    · simp at hc
    · simp at hc
    · have hc2 : (match jfield cfs "name" with
          | none => true
          | some (.jstr _) => true
          | some _ => false) = true := hc
      rcases cfs with _ | ⟨p, cfs1⟩
      · have hl : normalize_entries (JVal.jobj fs :: rest)
            = normalize_entries rest := by
          simp [normalize_entries, pyGet, hcard, pyTruthy]
        have hr : claimedEntryRule (JVal.jobj fs) = none := by
          have hemp : ("" : String).isEmpty = true := rfl
          simp [claimedEntryRule, hcard, jfield, hemp]
        rw [hl, hr]
      · have hname : (jfield (p :: cfs1) "name").getD (.jstr "") = .jstr
            (match jfield (p :: cfs1) "name" with
             | some (.jstr s) => s | _ => "") := by
          rcases hnf : jfield (p :: cfs1) "name" with _ | nv
          · rfl
          · rw [hnf] at hc2
            rcases nv with _ | b | m | s | xs | nfs <;> simp at hc2 ⊢
        have hname2 : (match jfield (p :: cfs1) "name" with
              | some (.jstr s) => pyStripStr s | _ => "")
            = pyStripStr (match jfield (p :: cfs1) "name" with
              | some (.jstr s) => s | _ => "") := by
          rcases hnf : jfield (p :: cfs1) "name" with _ | nv
          · rfl
          · rw [hnf] at hc2
            rcases nv with _ | b | m | s | xs | nfs <;> simp at hc2 ⊢
        have hl : normalize_entries (JVal.jobj fs :: rest)
            = (if decide ((0 : Int) < (match jfield fs "quantity" with
                  | some (.jnum n) => n | _ => 0)) then
                (if (pyStripStr (match jfield (p :: cfs1) "name" with
                      | some (.jstr s) => s | _ => "")).isEmpty then
                  normalize_entries rest
                else
                  match normalize_entries rest with
                  | .error err => .error err
                  | .ok tl => .ok (⟨pyStripStr (match jfield (p :: cfs1) "name" with
                      | some (.jstr s) => s | _ => ""),
                      (match jfield fs "quantity" with
                       | some (.jnum n) => n | _ => 0)⟩ :: tl))
              else normalize_entries rest) := by
          simp only [normalize_entries, pyGet, hcard, Option.getD_some,
            pyTruthy, List.isEmpty_cons, Bool.not_false, if_true, hquant,
            hname, pyGtZero, pyStrip, pyToInt]
        have hr : claimedEntryRule (JVal.jobj fs)
            = (if (0 : Int) < (match jfield fs "quantity" with
                  | some (.jnum n) => n | _ => 0) ∧
                !(pyStripStr (match jfield (p :: cfs1) "name" with
                  | some (.jstr s) => s | _ => "")).isEmpty then
                some ⟨pyStripStr (match jfield (p :: cfs1) "name" with
                  | some (.jstr s) => s | _ => ""),
                  (match jfield fs "quantity" with
                   | some (.jnum n) => n | _ => 0)⟩
              else none) := by
          simp only [claimedEntryRule, hcard, hname2]
        rw [hl, hr]
        by_cases h0 : (0 : Int) < (match jfield fs "quantity" with
            | some (.jnum n) => n | _ => 0)
        · by_cases hs : (pyStripStr (match jfield (p :: cfs1) "name" with
              | some (.jstr s) => s | _ => "")).isEmpty
          · simp [h0, hs]
          · simp [h0, hs]
        · simp [h0]

lemma normalize_entries_wellShaped (entries : List JVal)
    (h : ∀ e ∈ entries, wellShapedEntry e = true) :
    normalize_entries entries = .ok (entries.filterMap claimedEntryRule) := by
  revert h
  induction entries with
  | nil => intro _; rfl
  | cons e rest ih =>
    intro h
    rw [normalize_entries_cons_wellShaped e rest (h e (by simp))]
    rcases hce : claimedEntryRule e with _ | r
    · rw [ih (fun x hx => h x (by simp [hx]))]
      simp [List.filterMap_cons, hce]
    · rw [ih (fun x hx => h x (by simp [hx]))]
      simp [List.filterMap_cons, hce]

lemma claimedEntryRule_pos (e : JVal) (r : DeckRequirement)
    (h : claimedEntryRule e = some r) : 0 < r.quantity := by
  rcases e with _ | b | n | s | xs | fs <;> simp [claimedEntryRule] at h
  rcases hc : jfield fs "card" with _ | cv
  · rw [hc] at h; simp at h
  · rw [hc] at h
    rcases cv with _ | b | n | s | xs | cfs <;> simp at h
    obtain ⟨⟨h0, _⟩, heq⟩ := h
    rw [← heq]
    exact h0

/-- The resolver's parse of a well-formed batched response whose payload is
the entry list: it reduces to the entry loop; on a loop exception of a
caught kind the handler successfully prints `raw_response[0]` here, so the
result is `[]`. -/
lemma parse_trpc_response_wrap (entries : List JVal) :
    parse_trpc_response (.jarr [.jobj [("result", .jobj [("data", .jobj
        [("json", .jarr entries)])])]])
      = match normalize_entries entries with
        | .ok l => .ok l
        | .error err => if err = .attrError then .error err else .ok [] := by
  cases hn : normalize_entries entries with
  | ok l => simp [parse_trpc_response, pyIndexNat, pyIndexStr, jfield, hn]
  | error err => simp [parse_trpc_response, pyIndexNat, pyIndexStr, jfield, hn]

/-- C6: when normalizing the fetched decklist entries (well-shaped ones —
dict entries whose `quantity` is numeric and whose `card`, when present, is
null or a dict with a string name), the resolver silently drops every entry
missing its card sub-object, with non-positive quantity, or with a blank
stripped name; the survivors appear in source order as `{name, quantity}`,
and every output quantity is positive. -/
theorem C6_entry_filtering (entries : List JVal)
    (h : ∀ e ∈ entries, wellShapedEntry e = true) :
    parse_trpc_response (.jarr [.jobj [("result", .jobj [("data", .jobj
        [("json", .jarr entries)])])]])
      = .ok (entries.filterMap claimedEntryRule) ∧
    ∀ r ∈ entries.filterMap claimedEntryRule, 0 < r.quantity := by
  constructor
  · rw [parse_trpc_response_wrap, normalize_entries_wellShaped entries h]
  · intro r hr
    obtain ⟨e, _, hce⟩ := List.mem_filterMap.mp hr
    exact claimedEntryRule_pos e r hce

/-- Concrete entry list for the C6 witness: one keeper and six entries that
are dropped (zero quantity, missing quantity, null card, blank name, missing
card, negative quantity). -/
def sampleEntries : List JVal :=
  [.jobj [("quantity", .jnum 2), ("card", .jobj [("name", .jstr "A")])],
   .jobj [("quantity", .jnum 0), ("card", .jobj [("name", .jstr "B")])],
   .jobj [("card", .jobj [("name", .jstr "C")])],
   .jobj [("quantity", .jnum 4), ("card", .jnull)],
   .jobj [("quantity", .jnum 5), ("card", .jobj [("name", .jstr "  ")])],
   .jobj [("quantity", .jnum 6)],
   .jobj [("quantity", .jnum (-1)), ("card", .jobj [("name", .jstr "D")])]]

/-- Witness for C6: on `sampleEntries` only `{A, 2}` survives. -/
theorem C6_entry_filtering_witness :
    (∀ e ∈ sampleEntries, wellShapedEntry e = true) ∧
    parse_trpc_response (.jarr [.jobj [("result", .jobj [("data", .jobj
        [("json", .jarr sampleEntries)])])]])
      = .ok [⟨"A", 2⟩] := by
  refine ⟨by decide, ?_⟩
  exact ((C6_entry_filtering sampleEntries (by decide)).1).trans rfl

/-! ## Helper lemmas: deck-ID extraction (C8) -/

lemma takeWhile_of_all {α} (p : α → Bool) :
    ∀ l : List α, l.all p = true → l.takeWhile p = l
  | [], _ => rfl
  | a :: l, h => by
    simp only [List.all_cons, Bool.and_eq_true] at h
    simp [List.takeWhile_cons, h.1, takeWhile_of_all p l h.2]

lemma takeWhile_append_all {α} (p : α → Bool) :
    ∀ xs ys : List α, xs.all p = true →
      (xs ++ ys).takeWhile p = xs ++ ys.takeWhile p
  | [], _, _ => rfl
  | a :: xs, ys, h => by
    simp only [List.all_cons, Bool.and_eq_true] at h
    simp [List.takeWhile_cons, h.1, takeWhile_append_all p xs ys h.2]

lemma takeWhile_append_not_all {α} (p : α → Bool) :
    ∀ xs ys : List α, xs.all p = false →
      (xs ++ ys).takeWhile p = xs.takeWhile p
  | [], _, h => by simp at h
  | a :: xs, ys, h => by
    by_cases hpa : p a
    · have hxs : xs.all p = false := by
        simp only [List.all_cons, hpa, Bool.true_and] at h
        exact h
      simp [List.takeWhile_cons, hpa, takeWhile_append_not_all p xs ys hxs]
    · simp [List.takeWhile_cons, hpa]

/-- The first start position at which the `view/` branch of the pattern
matches, scanning left to right. -/
def firstViewMatch : List Char → Option (List Char)
  | [] => none
  | c :: rest =>
    match matchAlt1 (c :: rest) with
    | some g => some g
    | none => firstViewMatch rest

/-- The maximal trailing run of id characters. -/
def trailingRun (l : List Char) : List Char :=
  (l.reverse.takeWhile isIdChar).reverse

/-- The claim's description of the extractor (C8): the lowercase-alphanumeric
run immediately following the `view/` marker, or, failing that, the trailing
portion of the URL matched by the restricted charset `[a-z0-9]`; no
recognizable segment yields no id. -/
def extract_deck_id_spec (url : String) : Option String :=
  match firstViewMatch url.data with
  | some g => some g.asString
  | none =>
    if (trailingRun url.data).isEmpty then none
    else some (trailingRun url.data).asString

lemma matchAlt1_of_all_id (l : List Char) (h : l.all isIdChar = true) :
    matchAlt1 l = none := by
  unfold matchAlt1
  by_cases ht : l.take 5 = ['v', 'i', 'e', 'w', '/']
  · exfalso
    have hmem : '/' ∈ l := by
      have h5 : '/' ∈ l.take 5 := by rw [ht]; simp
      exact List.take_subset 5 l h5
    exact absurd (List.all_eq_true.mp h '/' hmem) (by decide)
  · simp [ht]

lemma firstViewMatch_of_all_id :
    ∀ l : List Char, l.all isIdChar = true → firstViewMatch l = none
  | [], _ => rfl
  | c :: rest, h => by
    simp only [firstViewMatch, matchAlt1_of_all_id _ h]
    refine firstViewMatch_of_all_id rest ?_
    simp only [List.all_cons, Bool.and_eq_true] at h
    exact h.2

lemma trailingRun_of_all_id (l : List Char) (h : l.all isIdChar = true) :
    trailingRun l = l := by
  unfold trailingRun
  rw [takeWhile_of_all _ _ (by rwa [List.all_reverse])]
  exact List.reverse_reverse l

lemma trailingRun_cons_not_all (c : Char) (rest : List Char)
    (h : (c :: rest).all isIdChar = false) :
    trailingRun (c :: rest) = trailingRun rest := by
  unfold trailingRun
  rw [List.reverse_cons]
  cases hr : rest.all isIdChar
  · rw [takeWhile_append_not_all _ _ _ (by rwa [List.all_reverse])]
  · have hc : isIdChar c = false := by
      simp only [List.all_cons, hr, Bool.and_true] at h
      exact h
    rw [takeWhile_append_all _ _ _ (by rwa [List.all_reverse])]
    simp [List.takeWhile_cons, hc,
      takeWhile_of_all _ _ (show rest.reverse.all isIdChar = true by
        rwa [List.all_reverse])]

lemma reScan_eq (l : List Char) :
    reScan l
      = match firstViewMatch l with
        | some g => some g
        | none =>
          if (trailingRun l).isEmpty then none else some (trailingRun l) := by
  induction l with
  | nil => rfl
  | cons c rest ih =>
    rcases h1 : matchAlt1 (c :: rest) with _ | g
    · rcases h2 : matchAlt2 (c :: rest) with _ | g
      · have hall : (c :: rest).all isIdChar = false := by
          by_cases hh : (c :: rest).all isIdChar
          · unfold matchAlt2 at h2
            simp [hh] at h2
          · simpa using hh
        rw [show reScan (c :: rest)
            = match matchAlt2 (c :: rest) with
              | some g => some g
              | none => reScan rest from by simp [reScan, h1]]
        rw [h2, ih]
        rw [show firstViewMatch (c :: rest) = firstViewMatch rest from by
          simp [firstViewMatch, h1]]
        rcases hf : firstViewMatch rest with _ | g2
        · rw [trailingRun_cons_not_all c rest hall]
        · rfl
      · have hg : g = c :: rest ∧ (c :: rest).all isIdChar = true := by
          by_cases hh : (c :: rest).all isIdChar
          · unfold matchAlt2 at h2
            simp [hh] at h2
            exact ⟨h2.symm, hh⟩
          · unfold matchAlt2 at h2
            simp [hh] at h2
        obtain ⟨hgeq, hall⟩ := hg
        have hfv : firstViewMatch (c :: rest) = none :=
          firstViewMatch_of_all_id _ hall
        have htr : trailingRun (c :: rest) = c :: rest :=
          trailingRun_of_all_id _ hall
        rw [show reScan (c :: rest)
            = match matchAlt2 (c :: rest) with
              | some g => some g
              | none => reScan rest from by simp [reScan, h1]]
        rw [h2, hfv, htr, hgeq]
        rfl
    · simp [reScan, h1, firstViewMatch]

lemma extract_deck_id_eq (url : String) :
    extract_deck_id url = extract_deck_id_spec url := by
  unfold extract_deck_id extract_deck_id_spec
  rw [reScan_eq]
  rcases firstViewMatch url.data with _ | g
  · by_cases h : (trailingRun url.data).isEmpty <;> simp [h]
  · rfl

/-- C8: the extractor accepts exactly the two claimed shapes in priority
order — the `[a-z0-9]` run immediately following the `view/` marker,
otherwise the trailing `[a-z0-9]`-matched segment — and on the claim's
concrete URLs it extracts `cmiwp5nmv6idr05eb8a09qm0d` after `view/`, while a
URL with no recognizable segment extracts no id, so resolution returns `[]`
for any fetch behaviour. -/
theorem C8_deck_id_extraction :
    (∀ url : String, extract_deck_id url = extract_deck_id_spec url) ∧
    extract_deck_id "https://curiosa.io/decks/view/cmiwp5nmv6idr05eb8a09qm0d"
      = some "cmiwp5nmv6idr05eb8a09qm0d" ∧
    extract_deck_id "HTTPS://EXAMPLE.COM/" = none ∧
    ∀ fetch : FetchOracle,
      resolve_decklist_from_url fetch "HTTPS://EXAMPLE.COM/" = .ok [] := by
  exact ⟨extract_deck_id_eq, rfl, rfl, fun _ => rfl⟩

/-! ## Helper lemmas: PDF layout (C3, C7, C9) -/

/-- The names drawn by a job, in job order: each processed card contributes
`quantity` consecutive copies of its (tagged image's) name, and skipped
cards contribute nothing. -/
def processedNames (card_db : CardDB) (imgOK : String → Bool)
    (job : List PrintCard) : List String :=
  job.flatMap fun c =>
    if processedOK card_db imgOK c then List.replicate c.quantity.toNat c.name
    else []

/-- The claim's placement formula (C3): the cell with running index `i` is
on page `i / 9`, row `(i % 9) / 3`, column `i % 3`, drawn at
`x = 10mm + col·(63mm + 0.5mm)` and `y = 10mm + row·(88mm + 0.5mm)`. -/
def cellSpec (nm : String) (i : Nat) : Cell :=
  { name := nm
    page := i / 9
    x := 10 + ((i % 3 : Nat) : ℚ) * (63 + 1/2)
    y := 10 + (((i % 9) / 3 : Nat) : ℚ) * (88 + 1/2) }

/-- The claimed cell sequence for a name sequence starting at running
index `k`. -/
def cellsSpecFrom : Nat → List String → List Cell
  | _, [] => []
  | k, nm :: rest => cellSpec nm k :: cellsSpecFrom (k + 1) rest

/-- Cursor-state invariant of the drawing loop, holding before each
page-break check: the x position always encodes the next column; when the
counter sits exactly at a page boundary (and is nonzero) the y cursor has
run off the page bottom and the page is one behind (the pending
`add_page` fixes both), otherwise y and page encode the next row and page
directly. -/
def stInv (st : PdfState) : Prop :=
  st.x = 10 + ((st.counter % 3 : Nat) : ℚ) * (63 + 1/2) ∧
  (st.counter ≠ 0 ∧ st.counter % 9 = 0 →
    st.y = 10 + (3 : ℚ) * (88 + 1/2) ∧ st.page + 1 = st.counter / 9) ∧
  (¬(st.counter ≠ 0 ∧ st.counter % 9 = 0) →
    st.y = 10 + (((st.counter % 9) / 3 : Nat) : ℚ) * (88 + 1/2) ∧
    st.page = st.counter / 9)

lemma innerLoop_spec :
    ∀ (names : List String) (st : PdfState), stInv st →
      (innerLoop names st).1 = cellsSpecFrom st.counter names := by
  intro names
  induction names with
  | nil => intro st _; rfl
  | cons nm rest ih =>
    rintro ⟨k, x, y, pg⟩ ⟨hx, hy1, hy2⟩
    simp only at hx hy1 hy2
    simp only [innerLoop, COLS, ROWS, MARGIN_X, MARGIN_Y, CARD_WIDTH_MM,
      CARD_HEIGHT_MM, SPACING, Nat.reduceMul, cellsSpecFrom]
    by_cases hbrk : k ≠ 0 ∧ k % 9 = 0
    · rw [if_pos hbrk]
      obtain ⟨hyv, hpv⟩ := hy1 hbrk
      have hk3 : k % 3 = 0 := by omega
      have hrow : ¬((k + 1) % 3 = 0) := by omega
      rw [if_neg hrow]
      dsimp only
      rw [List.cons.injEq]
      constructor
      · unfold cellSpec
        rw [Cell.mk.injEq]
        refine ⟨rfl, by omega, ?_, ?_⟩
        · rw [hk3]; push_cast; ring
        · rw [hbrk.2]; norm_num
      · refine ih ⟨k + 1, 10 + 63 + 1/2, 10, pg + 1⟩ ?_
        refine ⟨?_, ?_, ?_⟩ <;> dsimp only
        · have h31 : (k + 1) % 3 = 1 := by omega
          rw [h31]; push_cast; ring
        · intro hc
          exfalso
          omega
        · intro _
          refine ⟨?_, by omega⟩
          have h91 : ((k + 1) % 9) / 3 = 0 := by omega
          rw [h91]; push_cast; ring
    · rw [if_neg hbrk]
      obtain ⟨hyv, hpv⟩ := hy2 hbrk
      by_cases hrow : (k + 1) % 3 = 0
      · rw [if_pos hrow]
        dsimp only
        rw [List.cons.injEq]
        constructor
        · unfold cellSpec
          rw [Cell.mk.injEq]
          exact ⟨rfl, hpv, hx, hyv⟩
        · refine ih ⟨k + 1, 10, y + 88 + 1/2, pg⟩ ?_
          refine ⟨?_, ?_, ?_⟩ <;> dsimp only
          · rw [hrow]; push_cast; ring
          · rintro ⟨-, h9⟩
            have hk8 : k % 9 = 8 := by omega
            refine ⟨?_, by omega⟩
            rw [hyv]
            have hq2 : (k % 9) / 3 = 2 := by omega
            rw [hq2]; push_cast; ring
          · intro hc
            have h9 : (k + 1) % 9 ≠ 0 := by
              intro h0
              exact hc ⟨by omega, h0⟩
            refine ⟨?_, by omega⟩
            rw [hyv]
            have hq1 : ((k + 1) % 9) / 3 = (k % 9) / 3 + 1 := by omega
            rw [hq1]; push_cast; ring
      · rw [if_neg hrow]
        dsimp only
        rw [List.cons.injEq]
        constructor
        · unfold cellSpec
          rw [Cell.mk.injEq]
          exact ⟨rfl, hpv, hx, hyv⟩
        · refine ih ⟨k + 1, x + 63 + 1/2, y, pg⟩ ?_
          refine ⟨?_, ?_, ?_⟩ <;> dsimp only
          · rw [hx]
            have h31 : (k + 1) % 3 = k % 3 + 1 := by omega
            rw [h31]; push_cast; ring
          · rintro ⟨-, h9⟩
            exfalso
            omega
          · intro _
            refine ⟨?_, by omega⟩
            rw [hyv]
            have hq1 : ((k + 1) % 9) / 3 = (k % 9) / 3 := by omega
            rw [hq1]

lemma innerLoop_append (a b : List String) : ∀ st : PdfState,
    innerLoop (a ++ b) st
      = ((innerLoop a st).1 ++ (innerLoop b (innerLoop a st).2).1,
         (innerLoop b (innerLoop a st).2).2) := by
  induction a with
  | nil => intro st; simp [innerLoop]
  | cons nm a ih =>
    intro st
    simp only [List.cons_append, innerLoop, List.append_eq]
    rw [ih]

lemma pdfLoop_spec (card_db : CardDB) (imgOK : String → Bool) :
    ∀ (job : List PrintCard) (st : PdfState) (fid : Nat),
      (pdfLoop card_db imgOK job st fid).cells
          = (innerLoop (processedNames card_db imgOK job) st).1 ∧
      (pdfLoop card_db imgOK job st fid).state
          = (innerLoop (processedNames card_db imgOK job) st).2 := by
  intro job
  induction job with
  | nil => intro st fid; exact ⟨rfl, rfl⟩
  | cons c rest ih =>
    intro st fid
    rcases hurl : imageUrlOf card_db c.name with _ | url
    · have hp : processedOK card_db imgOK c = false := by
        simp [processedOK, hurl]
      simp only [pdfLoop, hurl, processedNames, List.flatMap_cons, hp,
        Bool.false_eq_true, if_false, List.nil_append]
      exact ih st fid
    · by_cases hemp : url.isEmpty
      · have hp : processedOK card_db imgOK c = false := by
          simp [processedOK, hurl, hemp]
        simp only [pdfLoop, hurl, hemp, if_true, processedNames,
          List.flatMap_cons, hp, Bool.false_eq_true, if_false,
          List.nil_append]
        exact ih st fid
      · by_cases hok : imgOK url
        · have hp : processedOK card_db imgOK c = true := by
            simp [processedOK, hurl, hemp, hok]
          simp only [pdfLoop, hurl, hemp, hok, Bool.false_eq_true, if_false,
            if_true, processedNames, List.flatMap_cons, hp]
          rw [innerLoop_append]
          dsimp only
          refine ⟨?_, ?_⟩
          · rw [(ih _ (fid + 1)).1]
            exact rfl
          · rw [(ih _ (fid + 1)).2]
            exact rfl
        · have hp : processedOK card_db imgOK c = false := by
            simp [processedOK, hurl, hemp, hok]
          simp only [pdfLoop, hurl, hemp, hok, Bool.false_eq_true, if_false,
            processedNames, List.flatMap_cons, hp, List.nil_append]
          exact ih st fid

lemma pdfLoop_events (card_db : CardDB) (imgOK : String → Bool) :
    ∀ (job : List PrintCard) (st : PdfState) (fid : Nat),
      (pdfLoop card_db imgOK job st fid).events
        = ((pdfLoop card_db imgOK job st fid).tmpFiles).map
            PdfEvent.createTemp := by
  intro job
  induction job with
  | nil => intro st fid; rfl
  | cons c rest ih =>
    intro st fid
    rcases hurl : imageUrlOf card_db c.name with _ | url
    · simp only [pdfLoop, hurl]
      exact ih st fid
    · by_cases hemp : url.isEmpty
      · simp only [pdfLoop, hurl, hemp, if_true]
        exact ih st fid
      · by_cases hok : imgOK url
        · simp only [pdfLoop, hurl, hemp, hok, Bool.false_eq_true, if_false,
            if_true]
          rw [List.map_cons, ih _ (fid + 1)]
        · simp only [pdfLoop, hurl, hemp, hok, Bool.false_eq_true, if_false]
          exact ih st fid

lemma pdfLoop_skip (card_db : CardDB) (imgOK : String → Bool) (c : PrintCard)
    (post : List PrintCard) (hc : processedOK card_db imgOK c = false) :
    ∀ (pre : List PrintCard) (st : PdfState) (fid : Nat),
      pdfLoop card_db imgOK (pre ++ c :: post) st fid
        = pdfLoop card_db imgOK (pre ++ post) st fid := by
  intro pre
  induction pre with
  | nil =>
    intro st fid
    simp only [List.nil_append]
    rcases hurl : imageUrlOf card_db c.name with _ | url
    · simp [pdfLoop, hurl]
    · simp only [processedOK, hurl] at hc
      by_cases hemp : url.isEmpty
      · simp [pdfLoop, hurl, hemp]
      · have hok : imgOK url = false := by
          rw [Bool.and_eq_false_iff] at hc
          rcases hc with hc | hc
          · exact absurd hc (by simp [hemp])
          · exact hc
        simp [pdfLoop, hurl, hemp, hok]
  | cons p pre ih =>
    intro st fid
    simp only [List.cons_append, pdfLoop, List.append_eq]
    rcases hurl : imageUrlOf card_db p.name with _ | url
    · simp only [hurl]
      exact ih st fid
    · by_cases hemp : url.isEmpty
      · simp only [hurl, hemp, if_true]
        exact ih st fid
      · by_cases hok : imgOK url
        · simp only [hurl, hemp, hok, Bool.false_eq_true, if_false, if_true]
          rw [ih _ (fid + 1)]
        · simp only [hurl, hemp, hok, Bool.false_eq_true, if_false]
          exact ih st fid

lemma cellsSpecFrom_length :
    ∀ (k : Nat) (names : List String),
      (cellsSpecFrom k names).length = names.length
  | _, [] => rfl
  | k, _ :: rest => by
    simp [cellsSpecFrom, cellsSpecFrom_length (k + 1) rest]

lemma cellsSpecFrom_map_name :
    ∀ (k : Nat) (names : List String),
      (cellsSpecFrom k names).map Cell.name = names
  | _, [] => rfl
  | k, nm :: rest => by
    simp [cellsSpecFrom, cellSpec, cellsSpecFrom_map_name (k + 1) rest]

lemma cellsSpecFrom_get :
    ∀ (names : List String) (k i : Nat) (h : i < names.length),
      (cellsSpecFrom k names).get
          ⟨i, by rw [cellsSpecFrom_length]; exact h⟩
        = cellSpec (names.get ⟨i, h⟩) (k + i)
  | nm :: rest, k, 0, _ => rfl
  | nm :: rest, k, i + 1, h => by
    have hr : i < rest.length := by
      simpa using Nat.lt_of_succ_lt_succ h
    have := cellsSpecFrom_get rest (k + 1) i hr
    simp only [cellsSpecFrom, List.get_cons_succ]
    rw [this]
    congr 1
    omega

/-- The cells drawn by `create_pdf_from_cards` are exactly the claimed
placement formula applied along the processed-name sequence. -/
lemma create_pdf_cells (card_db : CardDB) (imgOK : String → Bool)
    (job : List PrintCard) :
    (create_pdf_from_cards card_db imgOK job).cells
      = cellsSpecFrom 0 (processedNames card_db imgOK job) := by
  unfold create_pdf_from_cards
  dsimp only
  rw [(pdfLoop_spec card_db imgOK job ⟨0, MARGIN_X, MARGIN_Y, 0⟩ 0).1]
  refine innerLoop_spec _ _ ⟨?_, ?_, ?_⟩
  · show MARGIN_X = _
    norm_num [MARGIN_X]
  · rintro ⟨hc, -⟩
    exact absurd rfl hc
  · intro _
    refine ⟨?_, rfl⟩
    show MARGIN_Y = _
    norm_num [MARGIN_Y]

/-- C3: the placement of every drawn cell is the exact deterministic
function of the running cell index over successfully processed cells —
`page = i / 9`, `row = (i % 9) / 3`, `col = i % 3`, drawn at
`x = 10mm + col·(63mm + 0.5mm)`, `y = 10mm + row·(88mm + 0.5mm)` (that is
what `cellSpec` says) — with cards processed in job order and a card of
quantity N occupying N consecutive cells of the same tagged image (that is
what `processedNames` says). -/
theorem C3_layout_placement (card_db : CardDB) (imgOK : String → Bool)
    (job : List PrintCard) :
    (create_pdf_from_cards card_db imgOK job).cells
        = cellsSpecFrom 0 (processedNames card_db imgOK job) ∧
    ((create_pdf_from_cards card_db imgOK job).cells).map Cell.name
        = processedNames card_db imgOK job ∧
    ∀ i (h : i < (processedNames card_db imgOK job).length),
      (cellsSpecFrom 0 (processedNames card_db imgOK job)).get
          ⟨i, by rw [cellsSpecFrom_length]; exact h⟩
        = cellSpec ((processedNames card_db imgOK job).get ⟨i, h⟩) i := by
  refine ⟨create_pdf_cells card_db imgOK job, ?_, ?_⟩
  · rw [create_pdf_cells card_db imgOK job]
    exact cellsSpecFrom_map_name 0 _
  · intro i h
    have := cellsSpecFrom_get (processedNames card_db imgOK job) 0 i h
    rw [this]
    congr 1
    omega

/-- Witness for C3: a two-card job (quantities 2 and 1) drawn at indexes
0, 1, 2 of page 0. -/
theorem C3_layout_placement_witness :
    (0 : Nat) < (processedNames
        (fun _ => some ⟨some "u", none, none, none, none⟩) (fun _ => true)
        [⟨"g", 2⟩, ⟨"h", 1⟩]).length ∧
    (create_pdf_from_cards
        (fun _ => some ⟨some "u", none, none, none, none⟩) (fun _ => true)
        [⟨"g", 2⟩, ⟨"h", 1⟩]).cells
      = [⟨"g", 0, 10, 10⟩, ⟨"g", 0, 10 + (63 + 1/2), 10⟩,
         ⟨"h", 0, 10 + 2 * (63 + 1/2), 10⟩] := by
  refine ⟨by decide, ?_⟩
  have h := (C3_layout_placement
    (fun _ => some ⟨some "u", none, none, none, none⟩) (fun _ => true)
    [⟨"g", 2⟩, ⟨"h", 1⟩]).1
  rw [h]
  norm_num [processedNames, processedOK, imageUrlOf, cellsSpecFrom, cellSpec]

/-- C7: a card whose image cannot be fetched or processed (or that has no
truthy catalog image URL) is skipped without advancing the cell counter or
reserving a blank cell: the rest of the job is laid out exactly as if the
card had not been in the job; concretely, a job of one unfetchable card and
one valid card produces a one-page document containing only the valid
card's cell. -/
theorem C7_failed_card_skipped :
    (∀ (card_db : CardDB) (imgOK : String → Bool)
        (pre post : List PrintCard) (c : PrintCard),
      processedOK card_db imgOK c = false →
      create_pdf_from_cards card_db imgOK (pre ++ c :: post)
        = create_pdf_from_cards card_db imgOK (pre ++ post)) ∧
    (create_pdf_from_cards
          (fun n => if n = "good" then some ⟨some "u", none, none, none, none⟩
            else none) (fun _ => true) [⟨"bad", 1⟩, ⟨"good", 1⟩]).cells
        = [⟨"good", 0, 10, 10⟩] ∧
    (create_pdf_from_cards
          (fun n => if n = "good" then some ⟨some "u", none, none, none, none⟩
            else none) (fun _ => true) [⟨"bad", 1⟩, ⟨"good", 1⟩]).pageCount
        = 1 := by
  refine ⟨?_, by decide, by decide⟩
  intro card_db imgOK pre post c hc
  unfold create_pdf_from_cards
  rw [pdfLoop_skip card_db imgOK c post hc pre]

/-- Witness for C7: the skip property applied at a concrete job. -/
theorem C7_failed_card_skipped_witness :
    processedOK (fun n => if n = "good" then
        some ⟨some "u", none, none, none, none⟩ else none) (fun _ => true)
      ⟨"bad", 1⟩ = false ∧
    create_pdf_from_cards (fun n => if n = "good" then
        some ⟨some "u", none, none, none, none⟩ else none) (fun _ => true)
      [⟨"bad", 1⟩, ⟨"good", 1⟩]
      = create_pdf_from_cards (fun n => if n = "good" then
          some ⟨some "u", none, none, none, none⟩ else none) (fun _ => true)
        [⟨"good", 1⟩] :=
  ⟨by decide,
   C7_failed_card_skipped.1 (fun n => if n = "good" then
       some ⟨some "u", none, none, none, none⟩ else none) (fun _ => true)
     [] [⟨"good", 1⟩] ⟨"bad", 1⟩ (by decide)⟩

/-- C9: every temporary per-image file created during a
`create_pdf_from_cards` invocation has its removal attempted after the
document is serialized to the output buffer, whatever cards fail along the
way: the run's trace is the `createTemp` events of exactly the recorded
temp files, then `serialize`, then a `removeAttempt` for each of those same
files (removal outcomes are ignored). -/
theorem C9_cleanup_after_serialize (card_db : CardDB)
    (imgOK : String → Bool) (job : List PrintCard) :
    (create_pdf_from_cards card_db imgOK job).trace
      = ((create_pdf_from_cards card_db imgOK job).tmpFiles).map
          PdfEvent.createTemp
        ++ PdfEvent.serialize ::
          ((create_pdf_from_cards card_db imgOK job).tmpFiles).map
            PdfEvent.removeAttempt := by
  unfold create_pdf_from_cards
  dsimp only
  rw [pdfLoop_events card_db imgOK job]

end Sorcery
